import Mathlib

/-!
Verification of the `framegen` build tool (`src/build/framegen/main.c`).

The tool scans a directory for `.txt` frame files, sorts their names with
`strcmp`, reads each file, joins the contents with the single separator
byte `0x01` (no leading or trailing separator), compresses the joined
buffer with raw DEFLATE via zlib, and writes the compressed bytes to an
output file.

Bytes are modelled as `Nat` (values 0..255); file names are byte lists
(C strings, hence no embedded 0); file contents are byte lists.  The
platform directory scan, the filesystem and the allocator are oracles in
an environment record; zlib is an abstract engine record whose
documented contract (raw inflate inverts raw deflate) enters theorems as
a hypothesis.  The embedding follows the POSIX branch of the source
(`scandir` with `filter_frames` and `compare_frames`).
-/

/-- The separator byte `SEPARATOR = '\x01'` (main.c line 14). -/
def SEPARATOR : Nat := 1

/-- The bytes of the string ".txt". -/
def dotTxt : List Nat := [46, 116, 120, 116]

/-- Sign-model of C `strcmp` on NUL-free byte lists: negative result is
`-1`, positive is `1`, equality is `0`.  A shorter string that is a
prefix of a longer one compares smaller because its terminating NUL
(byte 0) is below every further byte of the longer string. -/
def strcmp : List Nat → List Nat → Int
  | [], [] => 0
  | [], _ :: _ => -1
  | _ :: _, [] => 1
  | a :: as, b :: bs =>
    if a < b then -1 else if b < a then 1 else strcmp as bs

/-- Function `filter_frames` (main.c lines 52-56): keep a directory entry when
its name is longer than 4 bytes and its last 4 bytes are ".txt"
(`len > 4 && strcmp(name + len - 4, ".txt") == 0`).  Only the entry
name is consulted; the entry's file type is not. -/
def filter_frames (name : List Nat) : Bool :=
  decide (4 < name.length) &&
    decide (strcmp (name.drop (name.length - 4)) dotTxt = 0)

/-- A directory entry as the scan callbacks see it: a name and whether
the entry is a subdirectory. -/
structure DirEntry where
  d_name : List Nat
  isDirectory : Bool
deriving DecidableEq

/-- Function `compare_frames` (main.c lines 58-60) as the sort order used by
`scandir`: name `a` may precede name `b` when `strcmp a b <= 0`. -/
def lexLe (a b : List Nat) : Prop := strcmp a b ≤ 0

instance : DecidableRel lexLe :=
  fun a b => inferInstanceAs (Decidable (strcmp a b ≤ 0))

/-- Model of the POSIX `scandir(frames_dir, &namelist, filter_frames,
compare_frames)` call (main.c line 103): the entry names that pass
`filter_frames`, sorted by `compare_frames`.  `filter_frames` receives
every entry, subdirectories included, and sees only the name. -/
def scandirModel (entries : List DirEntry) : List (List Nat) :=
  List.insertionSort lexLe
    ((entries.filter (fun e => filter_frames e.d_name)).map DirEntry.d_name)

/-- The joined buffer built by the copy loop (main.c lines 142-149):
frame `i`'s bytes, then one `SEPARATOR` byte whenever `i < n - 1`. -/
def joinFrames : List (List Nat) → List Nat
  | [] => []
  | [f] => f
  | f :: g :: rest => f ++ SEPARATOR :: joinFrames (g :: rest)

/-- Quantity `total_size` as accumulated by the read loop (main.c lines 115-134):
each frame's size, plus one byte whenever `i < n - 1`. -/
def total_size : List (List Nat) → Nat
  | [] => 0
  | [f] => f.length
  | f :: g :: rest => f.length + 1 + total_size (g :: rest)

/-- One-line diagnostics the tool writes to standard error, one
constructor per `fprintf(stderr, ...)` site in main.c. -/
inductive Msg
  | usage
  | scanFail
  | noFrames
  | openFail (path : List Nat)
  | readFail (path : List Nat)
  | allocJoinedFail
  | allocCompressedFail
  | deflateInitFail
  | deflateFail
  | createOutFail
  | writeFail
deriving DecidableEq

/-- Filesystem oracle for one `read_file` call: the file fails to open,
its buffer `malloc` returns NULL, `fread` comes up short, or the whole
content is read. -/
inductive ReadOutcome
  | openFail
  | allocFail
  | shortRead
  | ok (content : List Nat)
deriving DecidableEq

/-- Function `read_file` (main.c lines 63-87): the returned buffer (`none` for
the C NULL) and the diagnostics printed.  An open failure and a short
read each print one line; a `malloc` failure returns NULL silently
(lines 74-77 have no `fprintf`). -/
def read_file (path : List Nat) (o : ReadOutcome) : Option (List Nat) × List Msg :=
  match o with
  | ReadOutcome.openFail => (none, [Msg.openFail path])
  | ReadOutcome.allocFail => (none, [])
  | ReadOutcome.shortRead => (none, [Msg.readFail path])
  | ReadOutcome.ok c => (some c, [])

/-- Everything the environment decides besides the directory listing:
per-name read outcomes, success of each checked or unchecked
allocation, the two zlib stages, output creation, and how many bytes
`fwrite` reports written for a requested count. -/
structure Oracles where
  readFrame : List Nat → ReadOutcome
  arraysAllocOk : Bool
  joinedAllocOk : Bool
  compressedAllocOk : Bool
  deflateInitOk : Bool
  deflateFinishOk : Bool
  openOutOk : Bool
  fwriteCount : Nat → Nat

/-- The whole environment of one run: the `scandir` result (`none` for
`n < 0`) and the oracles. -/
structure Env where
  scan : Option (List DirEntry)
  orc : Oracles

/-- The read loop (main.c lines 119-134): reads the named frames in
order, stopping with `none` at the first failure, and collects the
diagnostics printed along the way. -/
def readFrames (orc : Oracles) : List (List Nat) → Option (List (List Nat)) × List Msg
  | [] => (some [], [])
  | n :: rest =>
    match read_file n (orc.readFrame n) with
    | (none, ms) => (none, ms)
    | (some c, ms) =>
      match readFrames orc rest with
      | (none, ms2) => (none, ms ++ ms2)
      | (some cs, ms2) => (some (c :: cs), ms ++ ms2)

/-- Abstract raw-DEFLATE engine standing for zlib, which is external to
this repository: a compressor and the matching raw decompressor.  The
zlib contract — inflating with the same raw parameters inverts
deflating — is taken as a hypothesis where a theorem needs it. -/
structure Engine where
  deflateRaw : List Nat → List Nat
  inflateRaw : List Nat → Option (List Nat)

/-- zlib constant `Z_DEFAULT_COMPRESSION`. -/
def Z_DEFAULT_COMPRESSION : Int := -1

/-- zlib constant `Z_DEFLATED`. -/
def Z_DEFLATED : Int := 8

/-- zlib constant `MAX_WBITS` (32 KiB window). -/
def MAX_WBITS : Int := 15

/-- zlib constant `Z_DEFAULT_STRATEGY`. -/
def Z_DEFAULT_STRATEGY : Int := 0

/-- The argument tuple of a `deflateInit2` call. -/
structure DeflateInitArgs where
  level : Int
  method : Int
  windowBits : Int
  memLevel : Int
  strategy : Int
deriving DecidableEq

/-- The exact `deflateInit2` call of main.c line 165:
`deflateInit2(&stream, Z_DEFAULT_COMPRESSION, Z_DEFLATED, -MAX_WBITS, 8,
Z_DEFAULT_STRATEGY)` — negative window bits select a raw stream with no
zlib wrapper. -/
def deflateInit2Call : DeflateInitArgs :=
  { level := Z_DEFAULT_COMPRESSION
  , method := Z_DEFLATED
  , windowBits := -MAX_WBITS
  , memLevel := 8
  , strategy := Z_DEFAULT_STRATEGY }

/-- Observable outcome of one run: the exit status (`none` when the run
reaches undefined behavior and crashes), the two output streams, and
whether/with what content the destination file was created. -/
structure RunResult where
  exitCode : Option Nat
  stderr : List Msg
  stdout : List Msg
  outputCreated : Bool
  outputBytes : List Nat
deriving DecidableEq

/-- A `return 1` exit after printing `ms` to standard error, before the
output file is opened. -/
def fail1 (ms : List Msg) : RunResult :=
  { exitCode := some 1, stderr := ms, stdout := [], outputCreated := false
  , outputBytes := [] }

/-- The run after a NULL frame array: `frame_contents` and
`frame_sizes` come from unchecked `calloc` calls (main.c lines
116-117), and the first loop iteration stores through the NULL pointer
— undefined behavior, modelled as a crash with no exit status, before
any output file exists. -/
def crashResult : RunResult :=
  { exitCode := none, stderr := [], stdout := [], outputCreated := false
  , outputBytes := [] }

/-- main.c lines 110-195 after a successful directory scan: the `n == 0`
check, the unchecked `calloc`s, the read loop, the join, the two zlib
stages, and the final create/write.  Each failing stage returns 1 after
its diagnostic; only the last two stages touch the output file. -/
def runPacked (eng : Engine) (orc : Oracles) (names : List (List Nat)) : RunResult :=
  match names with
  | [] => fail1 [Msg.noFrames]
  | _ :: _ =>
    if orc.arraysAllocOk then
      match readFrames orc names with
      | (none, ms) => fail1 ms
      | (some contents, ms) =>
        if orc.joinedAllocOk then
          if orc.compressedAllocOk then
            if orc.deflateInitOk then
              if orc.deflateFinishOk then
                let compressed := eng.deflateRaw (joinFrames contents)
                if orc.openOutOk then
                  let written := min (orc.fwriteCount compressed.length) compressed.length
                  if written = compressed.length then
                    { exitCode := some 0, stderr := ms, stdout := []
                    , outputCreated := true, outputBytes := compressed }
                  else
                    { exitCode := some 1, stderr := ms ++ [Msg.writeFail], stdout := []
                    , outputCreated := true, outputBytes := compressed.take written }
                else fail1 (ms ++ [Msg.createOutFail])
              else fail1 (ms ++ [Msg.deflateFail])
            else fail1 (ms ++ [Msg.deflateInitFail])
          else fail1 (ms ++ [Msg.allocCompressedFail])
        else fail1 (ms ++ [Msg.allocJoinedFail])
    else crashResult

/-- Function `main` (main.c lines 89-195): the arity check, the directory scan,
then the packing pipeline.  `argc` counts the program name, so two
positional arguments mean `argc = 3`. -/
def runMain (eng : Engine) (env : Env) (argc : Nat) : RunResult :=
  if argc ≠ 3 then fail1 [Msg.usage]
  else
    match env.scan with
    | none => fail1 [Msg.scanFail]
    | some entries => runPacked eng env.orc (scandirModel entries)

theorem strcmp_neg : ∀ a b : List Nat, strcmp a b = -strcmp b a
  | [], [] => by simp [strcmp]
  | [], _ :: _ => by simp [strcmp]
  | _ :: _, [] => by simp [strcmp]
  | a :: as, b :: bs => by
    simp only [strcmp]
    rcases Nat.lt_trichotomy a b with h | h | h
    · rw [if_pos h, if_neg (Nat.lt_asymm h), if_pos h]
    · subst h
      rw [if_neg (lt_irrefl a), if_neg (lt_irrefl a), if_neg (lt_irrefl a),
        if_neg (lt_irrefl a)]
      exact strcmp_neg as bs
    · rw [if_neg (Nat.lt_asymm h), if_pos h, if_neg (Nat.lt_asymm h), if_pos h]
      rfl

theorem strcmp_eq_zero_iff : ∀ a b : List Nat, strcmp a b = 0 ↔ a = b
  | [], [] => by simp [strcmp]
  | [], _ :: _ => by simp [strcmp]
  | _ :: _, [] => by simp [strcmp]
  | a :: as, b :: bs => by
    simp only [strcmp]
    rcases Nat.lt_trichotomy a b with h | h | h
    · rw [if_pos h]
      constructor
      · intro hc; exact absurd hc (by decide)
      · intro hc
        exact absurd (List.cons.injEq .. ▸ hc).1 (Nat.ne_of_lt h)
    · subst h
      rw [if_neg (lt_irrefl a), if_neg (lt_irrefl a)]
      rw [strcmp_eq_zero_iff as bs]
      simp
    · rw [if_neg (Nat.lt_asymm h), if_pos h]
      constructor
      · intro hc; exact absurd hc (by decide)
      · intro hc
        exact absurd (List.cons.injEq .. ▸ hc).1 (Nat.ne_of_lt h).symm

theorem strcmp_le_trans :
    ∀ a b c : List Nat, strcmp a b ≤ 0 → strcmp b c ≤ 0 → strcmp a c ≤ 0
  | [], b, c, _, _ => by cases c <;> simp [strcmp]
  | _ :: _, [], _, hab, _ => by simp [strcmp] at hab
  | _ :: _, _ :: _, [], _, hbc => by simp [strcmp] at hbc
  | a :: as, b :: bs, c :: cs, hab, hbc => by
    simp only [strcmp] at hab hbc ⊢
    split_ifs at hab hbc ⊢ <;> try omega
    all_goals exact strcmp_le_trans as bs cs hab hbc

instance : IsTotal (List Nat) lexLe where
  total a b := by
    unfold lexLe
    have h := strcmp_neg a b
    omega

instance : IsTrans (List Nat) lexLe where
  trans a b c := strcmp_le_trans a b c

instance : IsAntisymm (List Nat) lexLe where
  antisymm a b hab hba := by
    have h := strcmp_neg a b
    exact (strcmp_eq_zero_iff a b).mp (by unfold lexLe at hab hba; omega)

theorem joinFrames_eq_intercalate : ∀ fs : List (List Nat),
    joinFrames fs = List.intercalate [SEPARATOR] fs
  | [] => rfl
  | [f] => by simp [joinFrames, List.intercalate]
  | f :: g :: rest => by
    have ih := joinFrames_eq_intercalate (g :: rest)
    simp only [joinFrames, List.intercalate, List.intersperse_cons₂,
      List.flatten_cons] at ih ⊢
    rw [ih]
    simp

theorem joinFrames_length_eq_total_size : ∀ fs : List (List Nat),
    (joinFrames fs).length = total_size fs
  | [] => rfl
  | [f] => rfl
  | f :: g :: rest => by
    have ih := joinFrames_length_eq_total_size (g :: rest)
    simp only [joinFrames, total_size, List.length_append, List.length_cons] at ih ⊢
    omega

theorem total_size_eq : ∀ fs : List (List Nat),
    total_size fs = (fs.map List.length).sum + (fs.length - 1)
  | [] => rfl
  | [f] => by simp [total_size]
  | f :: g :: rest => by
    have ih := total_size_eq (g :: rest)
    simp only [total_size, List.map_cons, List.sum_cons, List.length_cons] at ih ⊢
    omega

theorem joinFrames_count_sep : ∀ fs : List (List Nat),
    (∀ f ∈ fs, SEPARATOR ∉ f) →
    (joinFrames fs).count SEPARATOR = fs.length - 1
  | [], _ => rfl
  | [f], h => by
    have hf : SEPARATOR ∉ f := h f (List.mem_singleton_self f)
    simp [joinFrames, List.count_eq_zero.mpr hf]
  | f :: g :: rest, h => by
    have hf : SEPARATOR ∉ f := h f (List.mem_cons_self f _)
    have ih := joinFrames_count_sep (g :: rest)
      (fun x hx => h x (List.mem_cons_of_mem f hx))
    simp only [joinFrames, List.count_append, List.count_cons_self,
      List.count_eq_zero.mpr hf, List.length_cons] at ih ⊢
    omega

/-- C1: for a non-empty FrameSet the joined buffer is exactly
`frame_1 ++ [0x01] ++ frame_2 ++ ... ++ [0x01] ++ frame_N` (the
intercalation by the one-byte separator, so never a leading or trailing
separator), its length is the sum of the frame lengths plus `N - 1` —
which is also exactly the `total_size` the tool allocates — and, when no
frame contains the separator byte, the buffer holds exactly `N - 1`
separator bytes. -/
theorem concat_buffer_layout (frames : List (List Nat)) (hne : frames ≠ []) :
    joinFrames frames = List.intercalate [SEPARATOR] frames
    ∧ (joinFrames frames).length = (frames.map List.length).sum + (frames.length - 1)
    ∧ (joinFrames frames).length = total_size frames
    ∧ ((∀ f ∈ frames, SEPARATOR ∉ f) →
        (joinFrames frames).count SEPARATOR = frames.length - 1) := by
  refine ⟨joinFrames_eq_intercalate frames, ?_, joinFrames_length_eq_total_size frames,
    joinFrames_count_sep frames⟩
  rw [joinFrames_length_eq_total_size frames, total_size_eq frames]

/-- C1 witness: the spec's own scenario, `a.txt` = "AA" and `b.txt` =
"BB": the joined buffer is `"AA" ++ [0x01] ++ "BB"`, five bytes with one
separator. -/
theorem concat_buffer_layout_witness :
    joinFrames [[65, 65], [66, 66]] = List.intercalate [SEPARATOR] [[65, 65], [66, 66]]
    ∧ (joinFrames [[65, 65], [66, 66]]).length = 5
    ∧ (joinFrames [[65, 65], [66, 66]]).count SEPARATOR = 1
    ∧ joinFrames [[65, 65], [66, 66]] = [65, 65, 1, 66, 66] := by
  have h := concat_buffer_layout [[65, 65], [66, 66]] (by decide)
  exact ⟨h.1, by decide, h.2.2.2 (by decide), by decide⟩

theorem scandirModel_perm (l1 l2 : List DirEntry) (h : l1.Perm l2) :
    scandirModel l1 = scandirModel l2 := by
  unfold scandirModel
  apply List.eq_of_perm_of_sorted (r := lexLe)
  · exact (List.perm_insertionSort _ _).trans
      (((h.filter _).map _).trans (List.perm_insertionSort _ _).symm)
  · exact List.sorted_insertionSort lexLe _
  · exact List.sorted_insertionSort lexLe _

/-- C2: for entries with distinct names the FrameSet name order produced
by the collector is the byte-wise lexicographic sort of the selected
names — identical for any two enumeration orders of the same entries,
and sorted under the `strcmp`-induced order. -/
theorem frameset_order (l1 l2 : List DirEntry) (hperm : l1.Perm l2)
    (hnodup : (l1.map DirEntry.d_name).Nodup) :
    scandirModel l1 = scandirModel l2 ∧ (scandirModel l1).Sorted lexLe :=
  ⟨scandirModel_perm l1 l2 hperm, List.sorted_insertionSort lexLe _⟩

/-- The bytes of "frame2.txt". -/
def nameFrame2 : List Nat := [102, 114, 97, 109, 101, 50, 46, 116, 120, 116]

/-- The bytes of "frame10.txt". -/
def nameFrame10 : List Nat := [102, 114, 97, 109, 101, 49, 48, 46, 116, 120, 116]

/-- C2 witness: the two enumeration orders of {"frame2.txt",
"frame10.txt"} give the same FrameSet, it is sorted, and "frame10.txt"
precedes "frame2.txt" (byte-wise, not numeric, order). -/
theorem frameset_order_witness :
    scandirModel [⟨nameFrame2, false⟩, ⟨nameFrame10, false⟩]
      = scandirModel [⟨nameFrame10, false⟩, ⟨nameFrame2, false⟩]
    ∧ (scandirModel [⟨nameFrame2, false⟩, ⟨nameFrame10, false⟩]).Sorted lexLe
    ∧ scandirModel [⟨nameFrame2, false⟩, ⟨nameFrame10, false⟩]
      = [nameFrame10, nameFrame2] := by
  have h := frameset_order [⟨nameFrame2, false⟩, ⟨nameFrame10, false⟩]
    [⟨nameFrame10, false⟩, ⟨nameFrame2, false⟩] (by decide) (by decide)
  exact ⟨h.1, h.2, by decide⟩

/-- The selection the POSIX collector actually applies to a directory
entry: `scandir` passes every entry to `filter_frames`, which sees only
the name (main.c lines 52-56, 103). -/
def posixSelects (e : DirEntry) : Bool := filter_frames e.d_name

/-- Modelled from the spec's words (sections 4.1 and 6): select exactly
the non-directory entries whose name ends with the suffix ".txt". -/
def specSelects (e : DirEntry) : Bool :=
  !e.isDirectory && dotTxt.isSuffixOf e.d_name

/-- The bytes of "a.txt". -/
def nameATxt : List Nat := [97, 46, 116, 120, 116]

/-- C3 counterexample: a regular file named exactly ".txt" ends with the
suffix ".txt" but is rejected (`filter_frames` demands `len > 4`), and a
subdirectory named "a.txt" is selected (the POSIX filter never sees the
entry type), so the code's selection differs from the claimed one at
both inputs. -/
theorem collector_filter_counterexample :
    (specSelects ⟨dotTxt, false⟩ = true ∧ posixSelects ⟨dotTxt, false⟩ = false)
    ∧ (specSelects ⟨nameATxt, true⟩ = false ∧ posixSelects ⟨nameATxt, true⟩ = true) := by
  decide

/-- C3 amended: the POSIX collector selects an entry exactly when its
name ends with ".txt" AND is strictly longer than four bytes (so the
name ".txt" itself is excluded); the entry's type is never consulted, so
subdirectories with matching names are selected too. -/
theorem collector_filter_amended (e : DirEntry) :
    posixSelects e = (dotTxt.isSuffixOf e.d_name && decide (4 < e.d_name.length)) := by
  rcases e with ⟨name, dir⟩
  rw [Bool.eq_iff_iff]
  simp only [posixSelects, filter_frames, Bool.and_eq_true, decide_eq_true_eq,
    List.isSuffixOf_iff_suffix, List.suffix_iff_eq_drop, strcmp_eq_zero_iff]
  have hlen : dotTxt.length = 4 := rfl
  rw [hlen]
  constructor
  · rintro ⟨h4, hdrop⟩
    exact ⟨hdrop.symm, h4⟩
  · rintro ⟨hdrop, h4⟩
    exact ⟨h4, hdrop.symm⟩

/-- C3 amended witness: the amended filter characterization evaluated
at the regular file "a.txt". -/
theorem collector_filter_amended_witness :
    posixSelects ⟨nameATxt, false⟩
      = (dotTxt.isSuffixOf nameATxt && decide (4 < nameATxt.length)) :=
  collector_filter_amended ⟨nameATxt, false⟩

/-- The content a successful `read_file` of name `n` yields (meaningful
when the read oracle answers `ok`). -/
def contentOk (orc : Oracles) (n : List Nat) : List Nat :=
  match orc.readFrame n with
  | ReadOutcome.ok c => c
  | _ => []

theorem readFrames_all_ok (orc : Oracles) :
    ∀ names : List (List Nat),
      (∀ n ∈ names, ∃ c, orc.readFrame n = ReadOutcome.ok c) →
      readFrames orc names = (some (names.map (contentOk orc)), [])
  | [], _ => rfl
  | n :: rest, h => by
    obtain ⟨c, hc⟩ := h n (List.mem_cons_self n rest)
    have ih := readFrames_all_ok orc rest (fun x hx => h x (List.mem_cons_of_mem n hx))
    simp [readFrames, read_file, hc, ih, contentOk]

theorem readFrames_some_reads_ok (orc : Oracles) :
    ∀ (names cs : List (List Nat)) (ms : List Msg),
      readFrames orc names = (some cs, ms) →
      ∀ n ∈ names, ∃ c, orc.readFrame n = ReadOutcome.ok c
  | [], _, _, _ => by
    intro n hn
    exact absurd hn (List.not_mem_nil n)
  | n :: rest, cs, ms, h => by
    intro x hx
    rcases hrr : readFrames orc rest with ⟨o, ms2⟩
    cases hro : orc.readFrame n with
    | openFail => simp [readFrames, read_file, hro] at h
    | allocFail => simp [readFrames, read_file, hro] at h
    | shortRead => simp [readFrames, read_file, hro] at h
    | ok c =>
      rcases List.mem_cons.mp hx with hxn | hxr
      · exact hxn ▸ ⟨c, hro⟩
      · cases o with
        | none => simp [readFrames, read_file, hro, hrr] at h
        | some cs2 => exact readFrames_some_reads_ok orc rest cs2 ms2 hrr x hxr

theorem runMain_eq_runPacked (eng : Engine) (env : Env) (entries : List DirEntry)
    (hscan : env.scan = some entries) :
    runMain eng env 3 = runPacked eng env.orc (scandirModel entries) := by
  unfold runMain
  rw [if_neg (by decide), hscan]

/-- C4: when the directory scan succeeds but selects zero `.txt` names,
the run exits with status 1, creates no output file, and reports the
empty-input diagnostic, which is a different message from the
directory-scan-failure diagnostic. -/
theorem empty_input_policy (eng : Engine) (env : Env) (entries : List DirEntry)
    (hscan : env.scan = some entries) (hempty : scandirModel entries = []) :
    runMain eng env 3 = fail1 [Msg.noFrames]
    ∧ (runMain eng env 3).exitCode = some 1
    ∧ (runMain eng env 3).outputCreated = false
    ∧ Msg.noFrames ≠ Msg.scanFail := by
  have h1 : runMain eng env 3 = fail1 [Msg.noFrames] := by
    rw [runMain_eq_runPacked eng env entries hscan, hempty]
    rfl
  exact ⟨h1, by rw [h1]; rfl, by rw [h1]; rfl, by decide⟩

/-- Oracles where every effect succeeds: every read yields the one-byte
content `[65]`, every allocation and zlib stage succeeds, and `fwrite`
writes everything it is asked to. -/
def orcAllOk : Oracles :=
  { readFrame := fun _ => ReadOutcome.ok [65]
  , arraysAllocOk := true
  , joinedAllocOk := true
  , compressedAllocOk := true
  , deflateInitOk := true
  , deflateFinishOk := true
  , openOutOk := true
  , fwriteCount := fun n => n }

/-- A trivially correct raw-DEFLATE engine (identity compression), used
to instantiate engine-parametric theorems at concrete inputs. -/
def engId : Engine :=
  { deflateRaw := fun d => d
  , inflateRaw := fun d => some d }

/-- C4 witness: an empty directory listing scans fine, yet the run fails
with the empty-input diagnostic and no output. -/
theorem empty_input_policy_witness :
    runMain engId { scan := some [], orc := orcAllOk } 3 = fail1 [Msg.noFrames]
    ∧ Msg.noFrames ≠ Msg.scanFail := by
  have h := empty_input_policy engId { scan := some [], orc := orcAllOk } [] rfl rfl
  exact ⟨h.1, h.2.2.2⟩

/-- All checked stages succeed: both frame arrays, the joined buffer
and the compression buffer allocate, and both zlib calls return
success. -/
def allStagesOk (orc : Oracles) : Prop :=
  orc.arraysAllocOk = true ∧ orc.joinedAllocOk = true ∧ orc.compressedAllocOk = true
  ∧ orc.deflateInitOk = true ∧ orc.deflateFinishOk = true ∧ orc.openOutOk = true

theorem runPacked_reaches_write (eng : Engine) (orc : Oracles)
    (names : List (List Nat)) (hne : names ≠ [])
    (hread : ∀ n ∈ names, ∃ c, orc.readFrame n = ReadOutcome.ok c)
    (hok : allStagesOk orc) :
    runPacked eng orc names =
      (if min (orc.fwriteCount (eng.deflateRaw (joinFrames (names.map (contentOk orc)))).length)
            (eng.deflateRaw (joinFrames (names.map (contentOk orc)))).length
          = (eng.deflateRaw (joinFrames (names.map (contentOk orc)))).length then
        { exitCode := some 0, stderr := [], stdout := [], outputCreated := true
        , outputBytes := eng.deflateRaw (joinFrames (names.map (contentOk orc))) }
      else
        { exitCode := some 1, stderr := [Msg.writeFail], stdout := []
        , outputCreated := true
        , outputBytes :=
            (eng.deflateRaw (joinFrames (names.map (contentOk orc)))).take
              (min (orc.fwriteCount
                  (eng.deflateRaw (joinFrames (names.map (contentOk orc)))).length)
                (eng.deflateRaw (joinFrames (names.map (contentOk orc)))).length) }) := by
  obtain ⟨h1, h2, h3, h4, h5, h6⟩ := hok
  cases names with
  | nil => exact absurd rfl hne
  | cons n rest =>
    simp only [runPacked, h1, h2, h3, h4, h5, h6, if_true,
      readFrames_all_ok orc (n :: rest) hread, List.nil_append]

theorem runPacked_success (eng : Engine) (orc : Oracles)
    (names : List (List Nat)) (hne : names ≠ [])
    (hread : ∀ n ∈ names, ∃ c, orc.readFrame n = ReadOutcome.ok c)
    (hok : allStagesOk orc) (hw : ∀ k, k ≤ orc.fwriteCount k) :
    runPacked eng orc names =
      { exitCode := some 0, stderr := [], stdout := [], outputCreated := true
      , outputBytes := eng.deflateRaw (joinFrames (names.map (contentOk orc))) } := by
  rw [runPacked_reaches_write eng orc names hne hread hok,
    min_eq_right (hw _), if_pos rfl]

/-- C5: for any raw-DEFLATE engine satisfying zlib's documented
round-trip contract (raw inflate with matching parameters inverts raw
deflate), a successful run writes exactly the deflated joined buffer,
so inflating the output file yields the concatenated buffer
byte-for-byte — for arbitrary binary frame content, NUL bytes included;
and the `deflateInit2` call of the source requests a raw stream at
window bits `-MAX_WBITS = -15`, default compression level
`Z_DEFAULT_COMPRESSION`, default strategy `Z_DEFAULT_STRATEGY`, and
memory level 8. -/
theorem roundtrip_decompression (eng : Engine) (env : Env) (entries : List DirEntry)
    (hrt : ∀ d, eng.inflateRaw (eng.deflateRaw d) = some d)
    (hscan : env.scan = some entries)
    (hne : scandirModel entries ≠ [])
    (hread : ∀ n ∈ scandirModel entries, ∃ c, env.orc.readFrame n = ReadOutcome.ok c)
    (hok : allStagesOk env.orc)
    (hw : ∀ k, k ≤ env.orc.fwriteCount k) :
    eng.inflateRaw ((runMain eng env 3).outputBytes)
      = some (joinFrames ((scandirModel entries).map (contentOk env.orc)))
    ∧ (runMain eng env 3).exitCode = some 0
    ∧ deflateInit2Call.windowBits = -MAX_WBITS
    ∧ MAX_WBITS = 15
    ∧ deflateInit2Call.level = Z_DEFAULT_COMPRESSION
    ∧ deflateInit2Call.strategy = Z_DEFAULT_STRATEGY
    ∧ deflateInit2Call.memLevel = 8 := by
  rw [runMain_eq_runPacked eng env entries hscan,
    runPacked_success eng env.orc (scandirModel entries) hne hread hok hw]
  exact ⟨hrt _, rfl, rfl, rfl, rfl, rfl, rfl⟩

/-- C5 witness: one frame file "a.txt" with content `[65]`, the
identity engine (which satisfies the round-trip contract): inflating
the output gives back the joined buffer and the run exits 0. -/
theorem roundtrip_decompression_witness :
    engId.inflateRaw
        ((runMain engId { scan := some [⟨nameATxt, false⟩], orc := orcAllOk } 3).outputBytes)
      = some (joinFrames ((scandirModel [⟨nameATxt, false⟩]).map (contentOk orcAllOk)))
    ∧ (runMain engId { scan := some [⟨nameATxt, false⟩], orc := orcAllOk } 3).exitCode
      = some 0 := by
  have h := roundtrip_decompression engId { scan := some [⟨nameATxt, false⟩], orc := orcAllOk }
    [⟨nameATxt, false⟩] (fun d => rfl) rfl (by decide)
    (fun n _ => ⟨[65], rfl⟩) ⟨rfl, rfl, rfl, rfl, rfl, rfl⟩ (fun k => Nat.le_refl k)
  exact ⟨h.1, h.2.1⟩

/-- C8: the output is a deterministic function of the directory
contents and the oracle outcomes: two runs over the same entries — even
enumerated in different orders — with the same per-name read results
and the same allocator/zlib/write outcomes produce the very same
result, output bytes included. -/
theorem pack_deterministic (eng : Engine) (orc : Oracles) (l1 l2 : List DirEntry)
    (hperm : l1.Perm l2) (hnodup : (l1.map DirEntry.d_name).Nodup) :
    runMain eng { scan := some l1, orc := orc } 3
      = runMain eng { scan := some l2, orc := orc } 3 := by
  rw [runMain_eq_runPacked eng _ l1 rfl, runMain_eq_runPacked eng _ l2 rfl,
    scandirModel_perm l1 l2 hperm]

/-- C8 witness: the two enumeration orders of {"frame2.txt",
"frame10.txt"} give byte-identical run results, and the successful
output is the deflated joined buffer of the two one-byte frames in
sorted order. -/
theorem pack_deterministic_witness :
    runMain engId { scan := some [⟨nameFrame2, false⟩, ⟨nameFrame10, false⟩], orc := orcAllOk } 3
      = runMain engId { scan := some [⟨nameFrame10, false⟩, ⟨nameFrame2, false⟩], orc := orcAllOk } 3
    ∧ (runMain engId { scan := some [⟨nameFrame2, false⟩, ⟨nameFrame10, false⟩], orc := orcAllOk } 3).outputBytes
      = [65, 1, 65] := by
  refine ⟨pack_deterministic engId orcAllOk _ _ (by decide) (by decide), by decide⟩

/-- A failure that arises before the Writing stage: the scan fails, no
name matches, some selected frame cannot be fully read, or one of the
checked allocation / zlib stages fails.  (The unchecked frame-array
allocations are deliberately not listed: they do not lead to an orderly
exit.) -/
def preWriteFailure (env : Env) : Prop :=
  env.scan = none
  ∨ (∃ entries, env.scan = some entries ∧ scandirModel entries = [])
  ∨ (∃ entries, env.scan = some entries
      ∧ ∃ n, n ∈ scandirModel entries ∧ ∀ c, env.orc.readFrame n ≠ ReadOutcome.ok c)
  ∨ env.orc.joinedAllocOk = false
  ∨ env.orc.compressedAllocOk = false
  ∨ env.orc.deflateInitOk = false
  ∨ env.orc.deflateFinishOk = false

theorem runPacked_crash (eng : Engine) (orc : Oracles) (n : List Nat)
    (rest : List (List Nat)) (harr : orc.arraysAllocOk = false) :
    runPacked eng orc (n :: rest) = crashResult := by
  simp [runPacked, harr]

theorem runPacked_read_fail (eng : Engine) (orc : Oracles) (n : List Nat)
    (rest : List (List Nat)) (ms : List Msg) (harr : orc.arraysAllocOk = true)
    (hrf : readFrames orc (n :: rest) = (none, ms)) :
    runPacked eng orc (n :: rest) = fail1 ms := by
  simp [runPacked, harr, hrf]

theorem runPacked_stage_fail (eng : Engine) (orc : Oracles) (n : List Nat)
    (rest : List (List Nat)) (cs : List (List Nat)) (ms : List Msg)
    (harr : orc.arraysAllocOk = true)
    (hrf : readFrames orc (n :: rest) = (some cs, ms))
    (hflag : orc.joinedAllocOk = false ∨ orc.compressedAllocOk = false
      ∨ orc.deflateInitOk = false ∨ orc.deflateFinishOk = false) :
    (runPacked eng orc (n :: rest)).exitCode = some 1
    ∧ (runPacked eng orc (n :: rest)).outputCreated = false := by
  cases hj : orc.joinedAllocOk with
  | false => simp [runPacked, harr, hrf, hj, fail1]
  | true =>
    cases hc : orc.compressedAllocOk with
    | false => simp [runPacked, harr, hrf, hj, hc, fail1]
    | true =>
      cases hi : orc.deflateInitOk with
      | false => simp [runPacked, harr, hrf, hj, hc, hi, fail1]
      | true =>
        cases hf : orc.deflateFinishOk with
        | false => simp [runPacked, harr, hrf, hj, hc, hi, hf, fail1]
        | true => simp [hj, hc, hi, hf] at hflag

/-- C6 amended: on any failure before the Writing stage other than a
frame-array allocation failure — a scan failure, zero matching files, a
frame read failure, a joined- or compression-buffer allocation failure,
or a zlib initialization/finish failure — the process exits with status
1 and never creates or modifies the output destination; a frame-array
allocation failure is unchecked and crashes the process through a NULL
store instead of exiting, but it too never touches the output
destination. -/
theorem prewrite_failure_no_output (eng : Engine) (env : Env) :
    (env.orc.arraysAllocOk = true → preWriteFailure env →
      (runMain eng env 3).exitCode = some 1
      ∧ (runMain eng env 3).outputCreated = false)
    ∧ (env.orc.arraysAllocOk = false →
      (runMain eng env 3).outputCreated = false) := by
  constructor
  · intro harr hfail
    cases hscan : env.scan with
    | none =>
      have h1 : runMain eng env 3 = fail1 [Msg.scanFail] := by
        unfold runMain
        rw [if_neg (by decide), hscan]
      rw [h1]
      exact ⟨rfl, rfl⟩
    | some entries =>
      rw [runMain_eq_runPacked eng env entries hscan]
      cases hnames : scandirModel entries with
      | nil => exact ⟨rfl, rfl⟩
      | cons n rest =>
        rcases hrf : readFrames env.orc (n :: rest) with ⟨o, ms⟩
        cases o with
        | none =>
          rw [runPacked_read_fail eng env.orc n rest ms harr hrf]
          exact ⟨rfl, rfl⟩
        | some cs =>
          have hreads := readFrames_some_reads_ok env.orc (n :: rest) cs ms hrf
          apply runPacked_stage_fail eng env.orc n rest cs ms harr hrf
          rcases hfail with h | ⟨e2, he2, h⟩ | ⟨e2, he2, x, hx, h⟩ | h | h | h | h
          · rw [hscan] at h
            exact absurd h (by simp)
          · rw [hscan] at he2
            rw [(Option.some.injEq .. ▸ he2 : entries = e2)] at hnames
            rw [hnames] at h
            exact absurd h (by simp)
          · rw [hscan] at he2
            rw [(Option.some.injEq .. ▸ he2 : entries = e2)] at hnames
            rw [hnames] at hx
            obtain ⟨c, hc⟩ := hreads x hx
            exact absurd hc (h c)
          · exact Or.inl h
          · exact Or.inr (Or.inl h)
          · exact Or.inr (Or.inr (Or.inl h))
          · exact Or.inr (Or.inr (Or.inr h))
  · intro harr
    cases hscan : env.scan with
    | none =>
      have h1 : runMain eng env 3 = fail1 [Msg.scanFail] := by
        unfold runMain
        rw [if_neg (by decide), hscan]
      rw [h1]
      rfl
    | some entries =>
      rw [runMain_eq_runPacked eng env entries hscan]
      cases hnames : scandirModel entries with
      | nil => rfl
      | cons n rest =>
        rw [runPacked_crash eng env.orc n rest harr]
        rfl

/-- The all-success oracles with the two frame-array `calloc`s failing. -/
def orcArraysFail : Oracles :=
  { orcAllOk with arraysAllocOk := false }

/-- C6 counterexample: with one readable frame "a.txt" present and the
frame-array allocation failing — an allocation failure arising before
the Writing stage — the run does not exit with status 1 (it crashes
with no exit status at the NULL store of main.c line 127, the arrays of
lines 116-117 being unchecked), refuting the claim that every such
failure exits with status 1. -/
theorem prewrite_failure_counterexample :
    orcArraysFail.arraysAllocOk = false
    ∧ (runMain engId { scan := some [⟨nameATxt, false⟩], orc := orcArraysFail } 3).exitCode
      ≠ some 1
    ∧ runMain engId { scan := some [⟨nameATxt, false⟩], orc := orcArraysFail } 3
      = crashResult := by
  refine ⟨rfl, by decide, by decide⟩

/-- C6 witness: a directory-scan failure exits with status 1 and
creates no output. -/
theorem prewrite_failure_no_output_witness :
    (runMain engId { scan := none, orc := orcAllOk } 3).exitCode = some 1
    ∧ (runMain engId { scan := none, orc := orcAllOk } 3).outputCreated = false :=
  (prewrite_failure_no_output engId { scan := none, orc := orcAllOk }).1 rfl
    (Or.inl rfl)


theorem runPacked_shape (eng : Engine) (orc : Oracles) (names : List (List Nat)) :
    (∃ ms, runPacked eng orc names = fail1 ms)
    ∨ (orc.arraysAllocOk = false ∧ runPacked eng orc names = crashResult)
    ∨ (∃ ms bytes, runPacked eng orc names =
        { exitCode := some 0, stderr := ms, stdout := [], outputCreated := true
        , outputBytes := bytes })
    ∨ (∃ ms bytes, runPacked eng orc names =
        { exitCode := some 1, stderr := ms, stdout := [], outputCreated := true
        , outputBytes := bytes }) := by
  cases names with
  | nil => exact Or.inl ⟨_, rfl⟩
  | cons n rest =>
    cases harr : orc.arraysAllocOk with
    | false => exact Or.inr (Or.inl ⟨rfl, runPacked_crash eng orc n rest harr⟩)
    | true =>
      rcases hrf : readFrames orc (n :: rest) with ⟨o, ms⟩
      cases o with
      | none => exact Or.inl ⟨ms, runPacked_read_fail eng orc n rest ms harr hrf⟩
      | some cs =>
        cases hj : orc.joinedAllocOk with
        | false =>
          exact Or.inl ⟨ms ++ [Msg.allocJoinedFail], by simp [runPacked, harr, hrf, hj]⟩
        | true =>
        cases hc : orc.compressedAllocOk with
        | false =>
          exact Or.inl ⟨ms ++ [Msg.allocCompressedFail], by simp [runPacked, harr, hrf, hj, hc]⟩
        | true =>
        cases hi : orc.deflateInitOk with
        | false =>
          exact Or.inl ⟨ms ++ [Msg.deflateInitFail], by simp [runPacked, harr, hrf, hj, hc, hi]⟩
        | true =>
        cases hfin : orc.deflateFinishOk with
        | false =>
          exact Or.inl ⟨ms ++ [Msg.deflateFail], by simp [runPacked, harr, hrf, hj, hc, hi, hfin]⟩
        | true =>
        cases ho : orc.openOutOk with
        | false =>
          exact Or.inl ⟨ms ++ [Msg.createOutFail],
            by simp [runPacked, harr, hrf, hj, hc, hi, hfin, ho]⟩
        | true =>
          have hreads := readFrames_some_reads_ok orc (n :: rest) cs ms hrf
          have hrw := runPacked_reaches_write eng orc (n :: rest)
            (List.cons_ne_nil n rest) hreads ⟨harr, hj, hc, hi, hfin, ho⟩
          by_cases hw :
              min (orc.fwriteCount
                  (eng.deflateRaw (joinFrames ((n :: rest).map (contentOk orc)))).length)
                (eng.deflateRaw (joinFrames ((n :: rest).map (contentOk orc)))).length
              = (eng.deflateRaw (joinFrames ((n :: rest).map (contentOk orc)))).length
          · exact Or.inr (Or.inr (Or.inl ⟨[], _, by rw [hrw, if_pos hw]⟩))
          · exact Or.inr (Or.inr (Or.inr ⟨[Msg.writeFail], _, by rw [hrw, if_neg hw]⟩))

theorem runPacked_stdout_nil (eng : Engine) (orc : Oracles) (names : List (List Nat)) :
    (runPacked eng orc names).stdout = [] := by
  rcases runPacked_shape eng orc names with ⟨ms, h⟩ | ⟨_, h⟩ | ⟨ms, bytes, h⟩ | ⟨ms, bytes, h⟩ <;>
    rw [h] <;> rfl

theorem runPacked_exit_zero_or_one (eng : Engine) (orc : Oracles)
    (names : List (List Nat)) (harr : orc.arraysAllocOk = true) :
    (runPacked eng orc names).exitCode = some 0
    ∨ (runPacked eng orc names).exitCode = some 1 := by
  rcases runPacked_shape eng orc names with ⟨ms, h⟩ | ⟨hfalse, h⟩ | ⟨ms, bytes, h⟩ | ⟨ms, bytes, h⟩
  · exact Or.inr (by rw [h]; rfl)
  · rw [harr] at hfalse
    exact absurd hfalse (by decide)
  · exact Or.inl (by rw [h])
  · exact Or.inr (by rw [h])

theorem runPacked_exit_zero_iff (eng : Engine) (orc : Oracles) (names : List (List Nat))
    (hne : names ≠ []) (harr : orc.arraysAllocOk = true) :
    (runPacked eng orc names).exitCode = some 0 ↔
      ((∀ n ∈ names, ∃ c, orc.readFrame n = ReadOutcome.ok c)
        ∧ allStagesOk orc
        ∧ (eng.deflateRaw (joinFrames (names.map (contentOk orc)))).length
            ≤ orc.fwriteCount
              (eng.deflateRaw (joinFrames (names.map (contentOk orc)))).length) := by
  cases names with
  | nil => exact absurd rfl hne
  | cons n rest =>
    constructor
    · intro h0
      rcases hrf : readFrames orc (n :: rest) with ⟨o, ms⟩
      cases o with
      | none =>
        rw [runPacked_read_fail eng orc n rest ms harr hrf] at h0
        exact absurd h0 (by simp [fail1])
      | some cs =>
        have hreads := readFrames_some_reads_ok orc (n :: rest) cs ms hrf
        cases hj : orc.joinedAllocOk with
        | false =>
          have h1 := (runPacked_stage_fail eng orc n rest cs ms harr hrf (Or.inl hj)).1
          exact absurd (h1.symm.trans h0) (by decide)
        | true =>
        cases hc : orc.compressedAllocOk with
        | false =>
          have h1 := (runPacked_stage_fail eng orc n rest cs ms harr hrf
            (Or.inr (Or.inl hc))).1
          exact absurd (h1.symm.trans h0) (by decide)
        | true =>
        cases hi : orc.deflateInitOk with
        | false =>
          have h1 := (runPacked_stage_fail eng orc n rest cs ms harr hrf
            (Or.inr (Or.inr (Or.inl hi)))).1
          exact absurd (h1.symm.trans h0) (by decide)
        | true =>
        cases hfin : orc.deflateFinishOk with
        | false =>
          have h1 := (runPacked_stage_fail eng orc n rest cs ms harr hrf
            (Or.inr (Or.inr (Or.inr hfin)))).1
          exact absurd (h1.symm.trans h0) (by decide)
        | true =>
        cases ho : orc.openOutOk with
        | false =>
          have h1 : runPacked eng orc (n :: rest) = fail1 (ms ++ [Msg.createOutFail]) := by
            simp [runPacked, harr, hrf, hj, hc, hi, hfin, ho]
          rw [h1] at h0
          exact absurd h0 (by simp [fail1])
        | true =>
          have hok : allStagesOk orc := ⟨harr, hj, hc, hi, hfin, ho⟩
          have hrw := runPacked_reaches_write eng orc (n :: rest)
            (List.cons_ne_nil n rest) hreads hok
          rw [hrw] at h0
          by_cases hmin :
              min (orc.fwriteCount
                  (eng.deflateRaw (joinFrames ((n :: rest).map (contentOk orc)))).length)
                (eng.deflateRaw (joinFrames ((n :: rest).map (contentOk orc)))).length
              = (eng.deflateRaw (joinFrames ((n :: rest).map (contentOk orc)))).length
          · exact ⟨hreads, hok, min_eq_right_iff.mp hmin⟩
          · rw [if_neg hmin] at h0
            exact absurd h0 (by simp)
    · rintro ⟨hread, hok, hw⟩
      rw [runPacked_reaches_write eng orc (n :: rest) (List.cons_ne_nil n rest) hread hok,
        min_eq_right hw, if_pos rfl]

/-- Predicate: every stage of a two-argument run succeeds — the scan
returns a listing, the selection is non-empty, every selected frame
reads fully, every checked allocation and both zlib stages succeed,
the output opens, and `fwrite` transfers all the compressed bytes. -/
def runSucceeds (eng : Engine) (env : Env) : Prop :=
  ∃ entries, env.scan = some entries
    ∧ scandirModel entries ≠ []
    ∧ (∀ n ∈ scandirModel entries, ∃ c, env.orc.readFrame n = ReadOutcome.ok c)
    ∧ allStagesOk env.orc
    ∧ (eng.deflateRaw (joinFrames ((scandirModel entries).map (contentOk env.orc)))).length
        ≤ env.orc.fwriteCount
          (eng.deflateRaw (joinFrames ((scandirModel entries).map (contentOk env.orc)))).length

/-- C7 amended: with any arity other than exactly two positional
arguments the tool prints the usage message to standard error and exits
with status 1; otherwise, provided the unchecked frame-array allocation
does not fail (its failure crashes the process with no exit status),
the tool exits with status 0 exactly when every stage succeeds and with
status 1 on every failure; all diagnostics go to standard error, and
nothing is ever printed to standard output. -/
theorem cli_contract (eng : Engine) (env : Env) (argc : Nat) :
    (runMain eng env argc).stdout = []
    ∧ (argc ≠ 3 → runMain eng env argc = fail1 [Msg.usage])
    ∧ (env.orc.arraysAllocOk = true →
        ((runMain eng env 3).exitCode = some 0 ↔ runSucceeds eng env)
        ∧ (¬ runSucceeds eng env → (runMain eng env 3).exitCode = some 1)) := by
  have husage : argc ≠ 3 → runMain eng env argc = fail1 [Msg.usage] := by
    intro h
    unfold runMain
    rw [if_pos h]
  refine ⟨?_, husage, ?_⟩
  · by_cases hargc : argc = 3
    · subst hargc
      cases hscan : env.scan with
      | none =>
        have h1 : runMain eng env 3 = fail1 [Msg.scanFail] := by
          unfold runMain
          rw [if_neg (by decide), hscan]
        rw [h1]
        rfl
      | some entries =>
        rw [runMain_eq_runPacked eng env entries hscan]
        exact runPacked_stdout_nil eng env.orc _
    · rw [husage hargc]
      rfl
  · intro harr
    have hiff : (runMain eng env 3).exitCode = some 0 ↔ runSucceeds eng env := by
      cases hscan : env.scan with
      | none =>
        have h1 : runMain eng env 3 = fail1 [Msg.scanFail] := by
          unfold runMain
          rw [if_neg (by decide), hscan]
        rw [h1]
        constructor
        · intro h
          exact absurd h (by simp [fail1])
        · rintro ⟨entries, he, -⟩
          rw [hscan] at he
          exact absurd he (by simp)
      | some entries =>
        rw [runMain_eq_runPacked eng env entries hscan]
        by_cases hne : scandirModel entries = []
        · constructor
          · intro h
            rw [hne] at h
            exact absurd h (by simp [runPacked, fail1])
          · rintro ⟨e2, he2, hne2, -⟩
            rw [hscan] at he2
            injection he2 with he2
            exact absurd (he2 ▸ hne) hne2
        · rw [runPacked_exit_zero_iff eng env.orc (scandirModel entries) hne harr]
          constructor
          · rintro ⟨hread, hok, hw⟩
            exact ⟨entries, hscan, hne, hread, hok, hw⟩
          · rintro ⟨e2, he2, hne2, hread, hok, hw⟩
            rw [hscan] at he2
            injection he2 with he2
            subst he2
            exact ⟨hread, hok, hw⟩
    refine ⟨hiff, fun hns => ?_⟩
    have hzo : (runMain eng env 3).exitCode = some 0
        ∨ (runMain eng env 3).exitCode = some 1 := by
      cases hscan : env.scan with
      | none =>
        have h1 : runMain eng env 3 = fail1 [Msg.scanFail] := by
          unfold runMain
          rw [if_neg (by decide), hscan]
        rw [h1]
        exact Or.inr rfl
      | some entries =>
        rw [runMain_eq_runPacked eng env entries hscan]
        exact runPacked_exit_zero_or_one eng env.orc _ harr
    rcases hzo with h0 | h1
    · exact absurd (hiff.mp h0) hns
    · exact h1

/-- C7 counterexample: a run with one readable frame and a failing
frame-array allocation terminates with neither exit status 0 nor exit
status 1 — it crashes at the NULL store (main.c lines 116-117, 127) —
refuting the claim that every failure exits with status 1. -/
theorem cli_exit_counterexample :
    ¬ ((runMain engId { scan := some [⟨nameATxt, false⟩], orc := orcArraysFail } 3).exitCode
        = some 0
      ∨ (runMain engId { scan := some [⟨nameATxt, false⟩], orc := orcArraysFail } 3).exitCode
        = some 1) := by
  decide

/-- The all-success oracles except that `fwrite` writes nothing. -/
def orcShortWrite : Oracles :=
  { orcAllOk with fwriteCount := fun _ => 0 }

/-- C7 witness: with four arguments the run is exactly the usage
failure; a fully successful run exits 0; a run whose only failure is a
short write exits 1; and standard output stays empty. -/
theorem cli_contract_witness :
    runMain engId { scan := some [⟨nameATxt, false⟩], orc := orcAllOk } 5 = fail1 [Msg.usage]
    ∧ (runMain engId { scan := some [⟨nameATxt, false⟩], orc := orcAllOk } 3).exitCode = some 0
    ∧ (runMain engId { scan := some [⟨nameATxt, false⟩], orc := orcShortWrite } 3).exitCode
      = some 1
    ∧ (runMain engId { scan := some [⟨nameATxt, false⟩], orc := orcAllOk } 3).stdout = [] := by
  refine ⟨(cli_contract engId { scan := some [⟨nameATxt, false⟩], orc := orcAllOk } 5).2.1
      (by decide), ?_, ?_,
    (cli_contract engId { scan := some [⟨nameATxt, false⟩], orc := orcAllOk } 3).1⟩
  · exact ((cli_contract engId { scan := some [⟨nameATxt, false⟩], orc := orcAllOk } 3).2.2
      rfl).1.mpr
      ⟨[⟨nameATxt, false⟩], rfl, by decide, fun n _ => ⟨[65], rfl⟩,
        ⟨rfl, rfl, rfl, rfl, rfl, rfl⟩, Nat.le_refl _⟩
  · have hns : ¬ runSucceeds engId { scan := some [⟨nameATxt, false⟩], orc := orcShortWrite } := by
      rintro ⟨entries, he, hne2, hread, hok, hw⟩
      injection he with he
      subst he
      revert hw
      decide
    exact ((cli_contract engId { scan := some [⟨nameATxt, false⟩], orc := orcShortWrite } 3).2.2
      (by rfl)).2 hns

/-- C9: the frame-array `calloc`s of main.c lines 116-117 are not
checked: when they fail with one readable frame present, the run
crashes (no exit status at all, no diagnostic) instead of reporting the
allocation failure and exiting 1; and `read_file`'s own buffer `malloc`
failure (lines 74-77) returns NULL with no diagnostic line either. -/
theorem alloc_unchecked_crash :
    orcArraysFail.arraysAllocOk = false
    ∧ runMain engId { scan := some [⟨nameATxt, false⟩], orc := orcArraysFail } 3 = crashResult
    ∧ crashResult.exitCode = none
    ∧ crashResult.stderr = []
    ∧ read_file nameATxt ReadOutcome.allocFail = (none, []) := by
  exact ⟨rfl, by decide, rfl, rfl, rfl⟩

/-- C10: when every stage up to the write succeeds but `fwrite`
transfers fewer bytes than the compressed size, the process exits with
status 1 — yet the destination file was already created (truncating
`fopen(output_file, "wb")`, main.c line 181) and is left holding
exactly the partially written prefix; nothing removes it. -/
theorem short_write_partial_output (eng : Engine) (env : Env) (entries : List DirEntry)
    (hscan : env.scan = some entries)
    (hne : scandirModel entries ≠ [])
    (hread : ∀ n ∈ scandirModel entries, ∃ c, env.orc.readFrame n = ReadOutcome.ok c)
    (hok : allStagesOk env.orc)
    (hshort : env.orc.fwriteCount
        (eng.deflateRaw (joinFrames ((scandirModel entries).map (contentOk env.orc)))).length
      < (eng.deflateRaw (joinFrames ((scandirModel entries).map (contentOk env.orc)))).length) :
    (runMain eng env 3).exitCode = some 1
    ∧ (runMain eng env 3).outputCreated = true
    ∧ (runMain eng env 3).stderr = [Msg.writeFail]
    ∧ (runMain eng env 3).outputBytes
      = (eng.deflateRaw (joinFrames ((scandirModel entries).map (contentOk env.orc)))).take
          (env.orc.fwriteCount
            (eng.deflateRaw (joinFrames ((scandirModel entries).map (contentOk env.orc)))).length) := by
  rw [runMain_eq_runPacked eng env entries hscan,
    runPacked_reaches_write eng env.orc (scandirModel entries) hne hread hok,
    min_eq_left (le_of_lt hshort), if_neg (Nat.ne_of_lt hshort)]
  exact ⟨rfl, rfl, rfl, rfl⟩

/-- C10 witness: one frame "a.txt" = `[65]`, identity engine, `fwrite`
reporting 0 bytes: the run exits 1 with the output file created and
holding the empty prefix. -/
theorem short_write_partial_output_witness :
    (runMain engId { scan := some [⟨nameATxt, false⟩], orc := orcShortWrite } 3).exitCode
      = some 1
    ∧ (runMain engId { scan := some [⟨nameATxt, false⟩], orc := orcShortWrite } 3).outputCreated
      = true
    ∧ (runMain engId { scan := some [⟨nameATxt, false⟩], orc := orcShortWrite } 3).outputBytes
      = [] := by
  have h := short_write_partial_output engId
    { scan := some [⟨nameATxt, false⟩], orc := orcShortWrite } [⟨nameATxt, false⟩]
    rfl (by decide) (fun n _ => ⟨[65], rfl⟩) ⟨rfl, rfl, rfl, rfl, rfl, rfl⟩ (by decide)
  exact ⟨h.1, h.2.1, by decide⟩
